import Mathlib

/-!
Verification development for the steering-interface backend.

This file gives a shallow embedding of the Variant State & Auto-Steer
Orchestration engine of the repository:

* `src/backend/services/variant_service.py` (class `VariantService`),
* `src/backend/services/llm_service.py` (class `LLMService`),
* `src/backend/src/core/services/completion_service.py`
  (`_stream_auto_steer_completion` / `_stream_regular_completion`).

Python dictionaries are modelled as insertion-ordered association lists
(`List (String × α)`), Python `float` steering strengths as `ℚ` (none of the
verified properties depends on binary floating-point rounding: the code only
stores values, compares them against constant bounds and tests equality with
0), and raised exceptions as `Except String` results.  Calls into the external
inference/search service and the external analysis capability are passed in
as explicit oracle arguments describing what those collaborators return.
-/

/-! ## Python dict primitives (insertion-ordered association lists) -/

/-- Lookup in a Python dict: `d.get(k)` / `d[k]`.  Returns the value of the
first (with well-formed key-distinct dicts: the only) binding of `k`. -/
def dictGet? {α : Type} : List (String × α) → String → Option α
  | [], _ => none
  | p :: rest, k => if p.1 = k then some p.2 else dictGet? rest k

/-- Lookup with default: `d.get(k, v₀)`. -/
def dictGetD {α : Type} (d : List (String × α)) (k : String) (v₀ : α) : α :=
  (dictGet? d k).getD v₀

/-- Python dict assignment `d[k] = v`: updates the binding in place if `k` is
present, otherwise appends a new binding (Python 3.7+ insertion order). -/
def dictSet {α : Type} : List (String × α) → String → α → List (String × α)
  | [], k, v => [(k, v)]
  | p :: rest, k, v => if p.1 = k then (k, v) :: rest else p :: dictSet rest k v

/-- Python dict deletion `del d[k]`. -/
def dictDel {α : Type} : List (String × α) → String → List (String × α)
  | [], _ => []
  | p :: rest, k => if p.1 = k then dictDel rest k else p :: dictDel rest k

/-- Membership test `k in d`. -/
def dictMem {α : Type} (d : List (String × α)) (k : String) : Bool :=
  (dictGet? d k).isSome

/-- Key-distinctness of a dict (every genuine Python dict satisfies it). -/
def dictWF {α : Type} (d : List (String × α)) : Prop :=
  (d.map Prod.fst).Nodup

theorem dictGet?_set_self {α : Type} (d : List (String × α)) (k : String) (v : α) :
    dictGet? (dictSet d k v) k = some v := by
  induction d with
  | nil => simp [dictSet, dictGet?]
  | cons p rest ih =>
    by_cases h : p.1 = k
    · simp [dictSet, dictGet?, h]
    · simp [dictSet, dictGet?, h, ih]

theorem dictGet?_set_ne {α : Type} (d : List (String × α)) (k k' : String) (v : α)
    (h : k' ≠ k) : dictGet? (dictSet d k v) k' = dictGet? d k' := by
  have hkk' : ¬(k = k') := fun e => h e.symm
  induction d with
  | nil => simp [dictSet, dictGet?, hkk']
  | cons p rest ih =>
    by_cases hp : p.1 = k
    · simp [dictSet, dictGet?, hp, hkk']
    · by_cases hp' : p.1 = k'
      · simp [dictSet, dictGet?, hp, hp', h]
      · simp [dictSet, dictGet?, hp, hp', ih]

theorem dictGet?_del_self {α : Type} (d : List (String × α)) (k : String) :
    dictGet? (dictDel d k) k = none := by
  induction d with
  | nil => simp [dictDel, dictGet?]
  | cons p rest ih =>
    by_cases h : p.1 = k
    · simp [dictDel, h, ih]
    · simp [dictDel, dictGet?, h, ih]

theorem dictGet?_del_ne {α : Type} (d : List (String × α)) (k k' : String)
    (h : k' ≠ k) : dictGet? (dictDel d k) k' = dictGet? d k' := by
  have hkk' : ¬(k = k') := fun e => h e.symm
  induction d with
  | nil => simp [dictDel]
  | cons p rest ih =>
    by_cases hp : p.1 = k
    · simp [dictDel, dictGet?, hp, hkk', ih]
    · by_cases hp' : p.1 = k'
      · simp [dictDel, dictGet?, hp, hp', h]
      · simp [dictDel, dictGet?, hp, hp', ih]

theorem mem_dictSet {α : Type} (d : List (String × α)) (k : String) (v : α)
    (p : String × α) (hp : p ∈ dictSet d k v) : p = (k, v) ∨ p ∈ d := by
  induction d with
  | nil => simpa [dictSet] using hp
  | cons q rest ih =>
    by_cases h : q.1 = k
    · simp only [dictSet, if_pos h] at hp
      rcases List.mem_cons.mp hp with h1 | h1
      · exact Or.inl h1
      · exact Or.inr (List.mem_cons_of_mem _ h1)
    · simp only [dictSet, if_neg h] at hp
      rcases List.mem_cons.mp hp with h1 | h1
      · exact Or.inr (List.mem_cons.mpr (Or.inl h1))
      · rcases ih h1 with h2 | h2
        · exact Or.inl h2
        · exact Or.inr (List.mem_cons_of_mem _ h2)

/-! ## Constants (`src/backend/core/constants.py`) -/

def DEMO_VARIANT_ID : String := "demo-variant"

def DEMO_VARIANT_LABEL : String := "demo"

def DEFAULT_BASE_MODEL : String := "meta-llama/Meta-Llama-3.1-8B-Instruct"

/-! ## Data model (`src/backend/schemas/feature.py`, `schemas/variant.py`) -/

/-- `UnifiedFeature` (schemas/feature.py): feature state for API responses. -/
structure UnifiedFeature where
  uuid : String
  label : String
  activation : Option ℚ
  modification : ℚ
  pending_modification : Option ℚ
  deriving DecidableEq, Repr

/-- `VariantSteerResponse` (schemas/feature.py). -/
structure VariantSteerResponse where
  success : Bool
  feature_uuid : String
  pending_modification : ℚ
  deriving DecidableEq, Repr

/-- `AutoSteerResponse` (schemas/variant.py). -/
structure AutoSteerResponse where
  success : Bool
  search_keywords : List String
  suggested_features : List UnifiedFeature
  deriving DecidableEq, Repr

/-- The in-memory state of `VariantService` (variant_service.py lines 20-22):
the two class-level dicts keyed by variant id, each holding a per-variant
dict from feature uuid to strength. -/
structure VariantStore where
  modified : List (String × List (String × ℚ))
  pending : List (String × List (String × ℚ))
  deriving DecidableEq, Repr

/-- The initial (process-start) state: both dicts empty. -/
def initialStore : VariantStore := ⟨[], []⟩

/-- `self._variant_pending_features.get(variant_id, {})`. -/
def pendingOf (st : VariantStore) (vid : String) : List (String × ℚ) :=
  dictGetD st.pending vid []

/-- `self._variant_modified_features.get(variant_id, {})`. -/
def modifiedOf (st : VariantStore) (vid : String) : List (String × ℚ) :=
  dictGetD st.modified vid []

/-! ## SteeringLedger operations (variant_service.py) -/

/-- `VariantService.steer_feature` (variant_service.py lines 67-124).
`lookup` is the oracle for `ember_client.features._list(ids=[feature_uuid])`:
`.error` for a raised exception, `.ok labels` for a returned feature list
(one label per returned feature).  Both an exception and an empty list leave
the handler raising `ValueError("Feature ... not found")`. -/
def steer_feature (st : VariantStore) (variant_id feature_uuid : String)
    (value : ℚ) (lookup : Except String (List String)) :
    VariantStore × Except String VariantSteerResponse :=
  if variant_id ≠ DEMO_VARIANT_ID then
    (st, .error ("Variant " ++ variant_id ++ " not found"))
  else if ¬(-1 ≤ value ∧ value ≤ 1) then
    (st, .error "Steering value must be between -1.0 and 1.0")
  else
    match lookup with
    | .error _ => (st, .error ("Feature " ++ feature_uuid ++ " not found"))
    | .ok features =>
      if features.isEmpty then
        (st, .error ("Feature " ++ feature_uuid ++ " not found"))
      else
        let st1 : VariantStore :=
          if ¬dictMem st.pending variant_id then
            { st with pending := dictSet st.pending variant_id [] }
          else st
        let st2 : VariantStore :=
          { st1 with
            pending := dictSet st1.pending variant_id
              (dictSet (pendingOf st1 variant_id) feature_uuid value) }
        (st2, .ok ⟨true, feature_uuid, value⟩)

/-- One iteration of the commit loop (variant_service.py lines 161-172):
a zero value deletes the confirmed entry if present, any other value is
written to the confirmed dict. -/
def commitStep (conf : List (String × ℚ)) (p : String × ℚ) : List (String × ℚ) :=
  if p.2 = 0 then
    if dictMem conf p.1 then dictDel conf p.1 else conf
  else
    dictSet conf p.1 p.2

/-- `VariantService.commit_changes` (variant_service.py lines 126-178). -/
def commit_changes (st : VariantStore) (variant_id : String) :
    VariantStore × Except String Bool :=
  if variant_id ≠ DEMO_VARIANT_ID then
    (st, .error ("Variant " ++ variant_id ++ " not found"))
  else
    let pending := dictGetD st.pending variant_id []
    if pending.isEmpty then
      (st, .ok true)
    else
      let st1 : VariantStore :=
        if ¬dictMem st.modified variant_id then
          { st with modified := dictSet st.modified variant_id [] }
        else st
      let newConf := pending.foldl commitStep (modifiedOf st1 variant_id)
      let st2 : VariantStore :=
        { st1 with modified := dictSet st1.modified variant_id newConf }
      let st3 : VariantStore :=
        { st2 with pending := dictSet st2.pending variant_id [] }
      (st3, .ok true)

/-- `VariantService.reject_changes` (variant_service.py lines 180-212). -/
def reject_changes (st : VariantStore) (variant_id : String) :
    VariantStore × Except String Bool :=
  if variant_id ≠ DEMO_VARIANT_ID then
    (st, .error ("Variant " ++ variant_id ++ " not found"))
  else
    let pending := dictGetD st.pending variant_id []
    if pending.isEmpty then
      (st, .ok true)
    else
      ({ st with pending := dictSet st.pending variant_id [] }, .ok true)

/-- `VariantService.create_unified_feature` (variant_service.py lines 264-299). -/
def create_unified_feature (st : VariantStore) (feature_uuid label : String)
    (activation : Option ℚ) (variant_id : Option String) : UnifiedFeature :=
  let vid := variant_id.getD DEMO_VARIANT_ID
  { uuid := feature_uuid
    label := label
    activation := activation
    modification := (dictGet? (dictGetD st.modified vid []) feature_uuid).getD 0
    pending_modification := dictGet? (dictGetD st.pending vid []) feature_uuid }

/-- The spec's `effective(config)` map (spec §3: "confirmed_edits overridden
by pending_edits where present"), read from the same store fields that
`create_unified_feature` reads. -/
def effective (st : VariantStore) (vid f : String) : Option ℚ :=
  match dictGet? (pendingOf st vid) f with
  | some v => some v
  | none => dictGet? (modifiedOf st vid) f

/-! ## Python string primitives

`str.lower()`, `str.strip()` and `str.split()` are modelled structurally
over the character list (the library's position-based `String.toLower`,
`String.trim` and `String.split` are extensionally the same on ASCII but are
not structurally recursive). -/

/-- Python `s.lower()` (ASCII). -/
def pyLower (s : String) : String :=
  String.mk (s.toList.map Char.toLower)

/-- Python `s.strip()`: drop leading and trailing whitespace. -/
def pyStrip (s : String) : String :=
  String.mk (((s.toList.dropWhile Char.isWhitespace).reverse.dropWhile
    Char.isWhitespace).reverse)

/-- Helper for `pySplit`: scan the characters, collecting the current word
(in reverse) and emitting it at each whitespace run. -/
def splitWsAux : List Char → List Char → List String
  | [], acc => if acc.isEmpty then [] else [String.mk acc.reverse]
  | c :: rest, acc =>
    if c.isWhitespace then
      if acc.isEmpty then splitWsAux rest []
      else String.mk acc.reverse :: splitWsAux rest []
    else splitWsAux rest (c :: acc)

/-- Python `s.split()`: split on whitespace runs, no empty pieces. -/
def pySplit (s : String) : List String :=
  splitWsAux s.toList []

/-! ## FeatureResolver: search (variant_service.py lines 301-375) -/

/-- `VariantService.search_features` (variant_service.py lines 301-375).
The function never mutates the store; it validates, then delegates to the
external semantic search.  `searchOracle` stands for
`ember_client.features.search(...)`: `.error` for a raised exception,
`.ok results` for the returned `(uuid, label)` list.  `activated` models the
optional `activated_features` dict (empty for `None`). -/
def search_features (st : VariantStore) (variant_id query : String)
    (top_k : Int) (searchOracle : Except String (List (String × String)))
    (activated : List (String × ℚ)) : Except String (List UnifiedFeature) :=
  if variant_id ≠ DEMO_VARIANT_ID then
    .error ("Variant " ++ variant_id ++ " not found")
  else if pyStrip query = "" then
    .error "Search query cannot be empty"
  else if top_k ≤ 0 then
    .error "top_k must be greater than 0"
  else if top_k > 100 then
    .error "top_k cannot exceed 100"
  else
    match searchOracle with
    | .error e => .error ("Failed to search features: " ++ e)
    | .ok results =>
      .ok (results.map (fun r =>
        create_unified_feature st r.1 r.2 (dictGet? activated r.1) (some variant_id)))

/-! ## AutoSteerPipeline entry point (variant_service.py lines 377-524) -/

/-- `" ".join(s)` applied to a Python string `s`: joins its characters with
spaces (this is what `auto_steer` actually computes as `combined_query`,
because its `keywords` variable holds a string, see below). -/
def joinChars (s : String) : String :=
  String.intercalate " " (s.toList.map String.singleton)

/-- `VariantService.auto_steer` (variant_service.py lines 377-524).

`genKeywords` is the oracle for `llm_service.generate_search_keywords(...)`
(llm_service.py lines 85-199): `.error` for a raised exception, `.ok kws` for
the returned keyword list.  `searchOracle` feeds the nested
`search_features` call.  The user query and conversation context influence
only the oracles, so they are not separate arguments.

Control flow mirrors the source faithfully, including its interface
mismatch with `llm_service.py`:

* line 421 unpacks the returned keyword LIST into `keywords, persona`; this
  succeeds only when the list has exactly two elements (binding `keywords`
  to the FIRST KEYWORD STRING), and otherwise raises `ValueError`, caught by
  the wrapping handler (line 522) and re-raised as
  `Exception("Auto-steer failed: ...")`;
* with a two-element list, `if not keywords` (line 427) tests the first
  string for emptiness; the empty case returns the unsuccessful response;
* otherwise `combined_query = " ".join(keywords)` space-joins the CHARACTERS
  of that string and `search_features` runs (lines 436-445); a raised search
  error reaches the same wrapping handler;
* when the search returns no features, line 449 builds
  `AutoSteerResponse(search_keywords=keywords)` with `keywords` a string,
  which pydantic rejects for the `List[str]` field, raising inside the `try`;
* when the search returns features, line 457 calls
  `llm_service.select_features_to_modify(..., persona=persona)`, but that
  method (llm_service.py lines 201-206) has no `persona` parameter, so the
  call itself raises `TypeError` before the callee runs.

Hence every branch with a nonempty first keyword ends in the wrapping
handler's error, and the store is never mutated by this function. -/
def auto_steer (st : VariantStore) (variant_id : String)
    (genKeywords : Except String (List String))
    (searchOracle : Except String (List (String × String))) :
    VariantStore × Except String AutoSteerResponse :=
  if variant_id ≠ DEMO_VARIANT_ID then
    (st, .error ("Variant " ++ variant_id ++ " not found"))
  else
    match genKeywords with
    | .error e => (st, .error ("Auto-steer failed: " ++ e))
    | .ok kws =>
      match kws with
      | [keywords, _persona] =>
        if keywords = "" then
          (st, .ok ⟨false, [], []⟩)
        else
          match search_features st variant_id (joinChars keywords) 10 searchOracle [] with
          | .error e => (st, .error ("Auto-steer failed: " ++ e))
          | .ok features =>
            if features.isEmpty then
              (st, .error "Auto-steer failed: search_keywords is not a valid list")
            else
              (st, .error "Auto-steer failed: select_features_to_modify got an unexpected keyword argument persona")
      | _ =>
        (st, .error ("Auto-steer failed: " ++
          (if kws.length < 2 then "not enough values to unpack"
           else "too many values to unpack")))

/-! ## LLMService: keyword-length guard (llm_service.py lines 455-499) -/

/-- `" ".join(keywords)`. -/
def joinSpace (ks : List String) : String :=
  String.intercalate " " ks

/-- The `while` loop of `_truncate_keywords_to_query_limit` (llm_service.py
lines 480-481): pop trailing keywords while the list is nonempty and the
space-join exceeds `maxLength`.  Written with explicit fuel so that it is
structurally recursive; each iteration shortens the list by one, so fuel
equal to the initial length makes `popFuel` agree with the unbounded loop. -/
def popFuel : Nat → List String → Nat → List String
  | 0, ks, _ => ks
  | n + 1, ks, maxLength =>
    if ks ≠ [] ∧ (joinSpace ks).length > maxLength then
      popFuel n ks.dropLast maxLength
    else ks

/-- `LLMService._truncate_keywords_to_query_limit` (llm_service.py lines
455-499), with its default `max_length = 100`.  The body after the loop is
modelled verbatim: note that when the loop exits with a nonempty list the
join already fits, so the inner character-truncation branch (lines 486-494)
can never execute. -/
def truncate_keywords_to_query_limit (keywords : List String)
    (maxLength : Nat := 100) : List String :=
  if keywords.isEmpty then keywords
  else if (joinSpace keywords).length ≤ maxLength then keywords
  else
    let truncated := popFuel keywords.length keywords maxLength
    if h : truncated ≠ [] then
      let finalQuery := joinSpace truncated
      if finalQuery.length > maxLength then
        let lastKeyword := truncated.getLast h
        let remainingSpace : Int :=
          (maxLength : Int) - (joinSpace truncated.dropLast).length - 1
        if remainingSpace > 0 then
          truncated.dropLast ++ [lastKeyword.take remainingSpace.toNat]
        else
          truncated.dropLast
      else truncated
    else truncated

/-! ## LLMService: feature-selection extraction (llm_service.py) -/

/-- Substring containment: `needle in hay` on Python strings. -/
def strContains (hay needle : String) : Bool :=
  hay.toList.tails.any (fun t => needle.toList.isPrefixOf t)

/-- The distinct words of a string: Python `set(s.split())`. -/
def wordsOf (s : String) : List String :=
  (pySplit s).dedup

/-- Count of distinct shared words, `len(label_words & feature_words)`. -/
def wordOverlap (labelWords featWords : List String) : Nat :=
  (labelWords.filter (fun w => w ∈ featWords)).length

/-- `LLMService._find_feature_uuid_by_label` (llm_service.py lines 501-529):
exact match on lowered+stripped labels, then substring containment in either
direction (on lowered, unstripped feature labels), then at-least-half word
overlap (`len(label_words & feature_words) >= max(1, len(label_words)*0.5)`);
first hit wins at each stage. -/
def find_feature_uuid_by_label (label : String)
    (search_results : List UnifiedFeature) : Option String :=
  let labelLower := pyStrip (pyLower label)
  match search_results.find? (fun f => pyStrip (pyLower f.label) == labelLower) with
  | some f => some f.uuid
  | none =>
    match search_results.find? (fun f =>
        strContains (pyLower f.label) labelLower ||
        strContains labelLower (pyLower f.label)) with
    | some f => some f.uuid
    | none =>
      let labelWords := wordsOf labelLower
      match search_results.find? (fun f =>
          decide ((wordOverlap labelWords (wordsOf (pyLower f.label)) : ℚ) ≥
            max 1 ((labelWords.length : ℚ) * (1 / 2)))) with
      | some f => some f.uuid
      | none => none

/-- One parsed item of the fallback JSON `selections` array
(llm_service.py lines 379-383): the `label` field with its `''` default, and
the `value` field, `none` when missing or when `float(value)` raises. -/
structure ParsedSelection where
  label : String
  value : Option ℚ
  deriving DecidableEq, Repr

/-- The validation/processing loop of `LLMService._extract_feature_selections`
(llm_service.py lines 375-415), applied to the parsed `selections` list:
keep an item when its stripped label is nonempty, its value parses, the value
lies in [-0.6, 0.6], and the label resolves to a uuid among the search
results; insert with dict-overwrite semantics; finally keep at most the
first two entries. -/
def extractStep (search_results : List UnifiedFeature)
    (acc : List (String × ℚ)) (s : ParsedSelection) : List (String × ℚ) :=
  let label := pyStrip s.label
  if label ≠ "" then
    match s.value with
    | some v =>
      if -(3 / 5 : ℚ) ≤ v ∧ v ≤ 3 / 5 then
        match find_feature_uuid_by_label label search_results with
        | some uuid => dictSet acc uuid v
        | none => acc
      else acc
    | none => acc
  else acc

def extract_feature_selections (sels : List ParsedSelection)
    (search_results : List UnifiedFeature) : List (String × ℚ) :=
  let selections := sels.foldl (extractStep search_results) []
  if selections.length > 2 then selections.take 2 else selections

/-- One selection object of the structured function-call payload
(llm_service.py lines 284-287): the optional `feature_uuid` and
`modification_value` fields. -/
structure StructuredSelection where
  feature_uuid : Option String
  modification_value : Option ℚ
  deriving DecidableEq, Repr

/-- The structured-path conversion loop of
`LLMService.select_features_to_modify` (llm_service.py lines 283-288):
`if feature_uuid and modification_value is not None:
selections[feature_uuid] = float(modification_value)`.
No range (or step) validation is performed on this path. -/
def structured_selections (data : List StructuredSelection) :
    List (String × ℚ) :=
  data.foldl (fun acc s =>
    match s.feature_uuid, s.modification_value with
    | some u, some v => if u ≠ "" then dictSet acc u v else acc
    | _, _ => acc) []

/-! ## CompletionOrchestrator: streaming
(`src/backend/src/core/services/completion_service.py`) -/

/-- `SteerFeatureResponse` (src/models/features.py lines 22-31). -/
structure SteerFeatureResponse where
  label : String
  activation : Option ℚ
  modified_value : ℚ
  deriving DecidableEq, Repr

/-- `AutoSteerResult` (src/models/chat.py lines 6-10). -/
structure AutoSteerResult where
  original_content : String
  steered_content : String
  applied_features : List SteerFeatureResponse
  deriving DecidableEq, Repr

/-- `ChatStreamChunk` (src/models/chat.py lines 12-20), restricted to the
fields the two streaming generators set. -/
structure ChatStreamChunk where
  type : String
  delta : Option String
  auto_steered : Option Bool
  auto_steer_result : Option AutoSteerResult
  err : Option String
  deriving DecidableEq, Repr

/-- A content chunk event (`ChatStreamChunk(type="chunk", delta=...)`). -/
def chunkEvent (delta : String) : ChatStreamChunk :=
  ⟨"chunk", some delta, none, none, none⟩

/-- `CompletionService._stream_regular_completion` (completion_service.py
lines 270-322), modelled on a run in which the upstream stream succeeds:
`upstream` carries the content extracted from each upstream chunk (the empty
string when the chunk has no content).  It emits one chunk event per
upstream chunk and then a bare terminal done event. -/
def stream_regular_completion (upstream : List String) : List ChatStreamChunk :=
  upstream.map chunkEvent ++ [⟨"done", none, none, none, none⟩]

/-- `CompletionService._stream_auto_steer_completion` (completion_service.py
lines 324-464), modelled on a run in which the analysis calls and both
upstream generation streams succeed.  `steered_features` is what
`analysis_service.auto_steer` returned; `baseline` and `steered` carry the
content extracted from each chunk of the two upstream streams (the empty
string for chunks without content; the accumulated texts concatenate exactly
the nonempty ones, which equals joining them all).  With no steered
features it falls back to regular streaming; otherwise it emits every
baseline chunk in order, then every steered chunk in order, then the single
terminal done event carrying the accumulated texts and applied features. -/
def stream_auto_steer_completion (steered_features : List SteerFeatureResponse)
    (baseline steered : List String) : List ChatStreamChunk :=
  if steered_features.isEmpty then
    stream_regular_completion baseline
  else
    baseline.map chunkEvent ++ steered.map chunkEvent ++
      [⟨"done", none, some true,
        some ⟨String.join baseline, String.join steered, steered_features⟩, none⟩]

/-! ## Helper lemmas about the commit loop -/

theorem commitStep_get_self (conf : List (String × ℚ)) (f : String) (v : ℚ) :
    dictGet? (commitStep conf (f, v)) f = if v = 0 then none else some v := by
  by_cases hv : v = 0
  · by_cases hm : dictMem conf f
    · simp [commitStep, hv, hm, dictGet?_del_self]
    · have hn : dictGet? conf f = none :=
        Option.not_isSome_iff_eq_none.mp (by simpa [dictMem] using hm)
      simp [commitStep, hv, hm, hn]
  · simp [commitStep, hv, dictGet?_set_self]

theorem commitStep_get_ne (conf : List (String × ℚ)) (g f : String) (w : ℚ)
    (h : f ≠ g) : dictGet? (commitStep conf (g, w)) f = dictGet? conf f := by
  by_cases hv : w = 0
  · by_cases hm : dictMem conf g
    · simp [commitStep, hv, hm, dictGet?_del_ne _ _ _ h]
    · simp [commitStep, hv, hm]
  · simp [commitStep, hv, dictGet?_set_ne _ _ _ _ h]

theorem foldl_commitStep_get_not_mem (pending : List (String × ℚ)) :
    ∀ (conf : List (String × ℚ)) (f : String),
    f ∉ pending.map Prod.fst →
    dictGet? (pending.foldl commitStep conf) f = dictGet? conf f := by
  induction pending with
  | nil => intro conf f _; rfl
  | cons p rest ih =>
    intro conf f hf
    simp only [List.map_cons, List.mem_cons, not_or] at hf
    rw [List.foldl_cons, ih _ _ hf.2, commitStep_get_ne _ _ _ _ hf.1]

theorem foldl_commitStep_get (pending : List (String × ℚ)) :
    ∀ (conf : List (String × ℚ)) (f : String) (v : ℚ),
    (f, v) ∈ pending → (pending.map Prod.fst).Nodup →
    dictGet? (pending.foldl commitStep conf) f = if v = 0 then none else some v := by
  induction pending with
  | nil => intro _ _ _ h; exact absurd h (List.not_mem_nil _)
  | cons p rest ih =>
    intro conf f v hmem hnd
    simp only [List.map_cons, List.nodup_cons] at hnd
    rcases List.mem_cons.mp hmem with he | hrest
    · subst he
      have hf : f ∉ rest.map Prod.fst := by simpa using hnd.1
      rw [List.foldl_cons, foldl_commitStep_get_not_mem _ _ _ hf,
        commitStep_get_self]
    · rw [List.foldl_cons]
      exact ih _ _ _ hrest hnd.2

/-- Claim C1: committing the demo variant's pending edits: every pending
entry `(f, v)` with `v = 0` leaves the confirmed map without key `f`, every
other entry sets `confirmed[f] = v`; the pending map is empty afterwards;
the call succeeds; and a commit with an empty pending map succeeds without
changing the store at all. -/
theorem commit_changes_spec (st : VariantStore)
    (hwf : dictWF (pendingOf st DEMO_VARIANT_ID)) :
    (commit_changes st DEMO_VARIANT_ID).2 = .ok true ∧
    pendingOf (commit_changes st DEMO_VARIANT_ID).1 DEMO_VARIANT_ID = [] ∧
    (∀ f v, (f, v) ∈ pendingOf st DEMO_VARIANT_ID →
      dictGet? (modifiedOf (commit_changes st DEMO_VARIANT_ID).1 DEMO_VARIANT_ID) f
        = if v = 0 then none else some v) ∧
    (pendingOf st DEMO_VARIANT_ID = [] →
      (commit_changes st DEMO_VARIANT_ID).1 = st) := by
  by_cases hp : (dictGetD st.pending DEMO_VARIANT_ID []).isEmpty
  · have he : pendingOf st DEMO_VARIANT_ID = [] := by
      simpa [pendingOf, List.isEmpty_iff] using hp
    have hp3 : dictGetD st.pending DEMO_VARIANT_ID [] = [] := by
      simpa [pendingOf] using he
    have hc : commit_changes st DEMO_VARIANT_ID = (st, .ok true) := by
      simp [commit_changes, hp3]
    refine ⟨by rw [hc], by rw [hc]; exact he, ?_, fun _ => by rw [hc]⟩
    intro f v hm
    rw [he] at hm
    exact absurd hm (List.not_mem_nil _)
  · have hp2 : ¬((dictGet? st.pending DEMO_VARIANT_ID).getD [] = []) := by
      simpa [dictGetD, List.isEmpty_iff] using hp
    have hp3 : ¬(dictGetD st.pending DEMO_VARIANT_ID [] = []) := by
      simpa [List.isEmpty_iff] using hp
    have hsnd : (commit_changes st DEMO_VARIANT_ID).2 = .ok true := by
      simp [commit_changes, hp3]
    have hpend : pendingOf (commit_changes st DEMO_VARIANT_ID).1 DEMO_VARIANT_ID = [] := by
      by_cases hm : dictMem st.modified DEMO_VARIANT_ID <;>
        simp [commit_changes, hp2, hm, pendingOf, dictGetD, dictGet?_set_self]
    have hmod : modifiedOf (commit_changes st DEMO_VARIANT_ID).1 DEMO_VARIANT_ID =
        (dictGetD st.pending DEMO_VARIANT_ID []).foldl commitStep
          (modifiedOf st DEMO_VARIANT_ID) := by
      by_cases hm : dictMem st.modified DEMO_VARIANT_ID
      · simp [commit_changes, hp2, hm, modifiedOf, dictGetD, dictGet?_set_self]
      · have hn : dictGet? st.modified DEMO_VARIANT_ID = none :=
          Option.not_isSome_iff_eq_none.mp (by simpa [dictMem] using hm)
        simp [commit_changes, hp2, hm, modifiedOf, dictGetD, dictGet?_set_self, hn]
    refine ⟨hsnd, hpend, ?_, ?_⟩
    · intro f v hmem
      rw [hmod]
      exact foldl_commitStep_get _ _ _ _ hmem hwf
    · intro he
      exact absurd he (by simpa [pendingOf, dictGetD, List.isEmpty_iff] using hp)

/-- Witness for `commit_changes_spec`: the spec's scenario store with
confirmed `humor ↦ 0.5` and pending `humor ↦ 0`. -/
theorem commit_changes_spec_witness :
    dictWF (pendingOf ⟨[(DEMO_VARIANT_ID, [("humor", 1/2)])],
      [(DEMO_VARIANT_ID, [("humor", 0)])]⟩ DEMO_VARIANT_ID) ∧
    ((commit_changes ⟨[(DEMO_VARIANT_ID, [("humor", 1/2)])],
        [(DEMO_VARIANT_ID, [("humor", 0)])]⟩ DEMO_VARIANT_ID).2 = .ok true ∧
      pendingOf (commit_changes ⟨[(DEMO_VARIANT_ID, [("humor", 1/2)])],
        [(DEMO_VARIANT_ID, [("humor", 0)])]⟩ DEMO_VARIANT_ID).1 DEMO_VARIANT_ID = [] ∧
      (∀ f v, (f, v) ∈ pendingOf ⟨[(DEMO_VARIANT_ID, [("humor", 1/2)])],
          [(DEMO_VARIANT_ID, [("humor", 0)])]⟩ DEMO_VARIANT_ID →
        dictGet? (modifiedOf (commit_changes ⟨[(DEMO_VARIANT_ID, [("humor", 1/2)])],
          [(DEMO_VARIANT_ID, [("humor", 0)])]⟩ DEMO_VARIANT_ID).1 DEMO_VARIANT_ID) f
          = if v = 0 then none else some v) ∧
      (pendingOf ⟨[(DEMO_VARIANT_ID, [("humor", 1/2)])],
          [(DEMO_VARIANT_ID, [("humor", 0)])]⟩ DEMO_VARIANT_ID = [] →
        (commit_changes ⟨[(DEMO_VARIANT_ID, [("humor", 1/2)])],
          [(DEMO_VARIANT_ID, [("humor", 0)])]⟩ DEMO_VARIANT_ID).1 =
          ⟨[(DEMO_VARIANT_ID, [("humor", 1/2)])],
            [(DEMO_VARIANT_ID, [("humor", 0)])]⟩)) :=
  ⟨by unfold dictWF pendingOf; decide, commit_changes_spec _ (by unfold dictWF pendingOf; decide)⟩

/-- `steer_feature` never touches the confirmed map, whatever its arguments
and outcome. -/
theorem steer_feature_modified_frame (st : VariantStore)
    (vid f : String) (v : ℚ) (lookup : Except String (List String)) :
    ((steer_feature st vid f v lookup).1).modified = st.modified := by
  by_cases h1 : vid ≠ DEMO_VARIANT_ID
  · simp [steer_feature, h1]
  · by_cases h2 : ¬(-1 ≤ v ∧ v ≤ 1)
    · simp [steer_feature, h1, h2]
    · cases lookup with
      | error e => simp [steer_feature, h1, h2]
      | ok l =>
        by_cases h3 : l.isEmpty
        · simp [steer_feature, h1, h2, h3]
        · by_cases h4 : dictMem st.pending vid <;>
            simp [steer_feature, h1, h2, h3, h4]

/-- A sequence of `steer_feature` proposals on the demo variant, each with
its own lookup oracle, applied in order to a store. -/
def applyProposals (st : VariantStore)
    (ps : List (String × ℚ × Except String (List String))) : VariantStore :=
  ps.foldl (fun s p => (steer_feature s DEMO_VARIANT_ID p.1 p.2.1 p.2.2).1) st

theorem applyProposals_modified_frame (ps : List (String × ℚ × Except String (List String))) :
    ∀ st : VariantStore, (applyProposals st ps).modified = st.modified := by
  induction ps with
  | nil => intro st; rfl
  | cons p rest ih =>
    intro st
    show (applyProposals (steer_feature st DEMO_VARIANT_ID p.1 p.2.1 p.2.2).1 rest).modified
      = st.modified
    rw [ih _, steer_feature_modified_frame]

/-- Claim C2: a proposal on the demo variant with an in-range strength and a
resolving feature lookup succeeds, returns the accepted value, overwrites
the pending entry unconditionally (whatever was pending before), leaves the
confirmed map untouched, and makes the effective value of the feature equal
the proposed strength; an out-of-range strength is rejected with an error
and the store is returned unchanged. -/
theorem steer_feature_spec :
    (∀ (st : VariantStore) (f : String) (s : ℚ) (labels : List String),
      -1 ≤ s → s ≤ 1 → labels ≠ [] →
      (steer_feature st DEMO_VARIANT_ID f s (.ok labels)).2 = .ok ⟨true, f, s⟩ ∧
      dictGet? (pendingOf (steer_feature st DEMO_VARIANT_ID f s (.ok labels)).1
        DEMO_VARIANT_ID) f = some s ∧
      ((steer_feature st DEMO_VARIANT_ID f s (.ok labels)).1).modified = st.modified ∧
      effective (steer_feature st DEMO_VARIANT_ID f s (.ok labels)).1
        DEMO_VARIANT_ID f = some s) ∧
    (∀ (st : VariantStore) (f : String) (s : ℚ) (lookup : Except String (List String)),
      ¬(-1 ≤ s ∧ s ≤ 1) →
      (steer_feature st DEMO_VARIANT_ID f s lookup).1 = st ∧
      (steer_feature st DEMO_VARIANT_ID f s lookup).2 =
        .error "Steering value must be between -1.0 and 1.0") := by
  constructor
  · intro st f s labels hs1 hs2 hlab
    have hr : ¬¬(-1 ≤ s ∧ s ≤ 1) := fun h => h ⟨hs1, hs2⟩
    have hl : ¬(labels.isEmpty = true) := by
      simpa [List.isEmpty_iff] using hlab
    have hpg : dictGet? (pendingOf (steer_feature st DEMO_VARIANT_ID f s (.ok labels)).1
        DEMO_VARIANT_ID) f = some s := by
      by_cases h4 : dictMem st.pending DEMO_VARIANT_ID <;>
        simp [steer_feature, hr, hl, h4, pendingOf, dictGetD, dictGet?_set_self]
    refine ⟨?_, hpg, steer_feature_modified_frame _ _ _ _ _, ?_⟩
    · by_cases h4 : dictMem st.pending DEMO_VARIANT_ID <;>
        simp [steer_feature, hr, hl, h4]
    · rw [effective, hpg]
  · intro st f s lookup hs
    constructor <;> simp [steer_feature, hs]

/-- Witness for `steer_feature_spec`: a proposal of strength 0.5 for
feature "humor" on the empty store, and a rejected proposal of
strength 2. -/
theorem steer_feature_spec_witness :
    ((-1 : ℚ) ≤ 1/2 ∧ (1/2 : ℚ) ≤ 1 ∧ (["humor label"] : List String) ≠ [] ∧
      (steer_feature initialStore DEMO_VARIANT_ID "humor" (1/2) (.ok ["humor label"])).2
        = .ok ⟨true, "humor", 1/2⟩ ∧
      dictGet? (pendingOf (steer_feature initialStore DEMO_VARIANT_ID "humor" (1/2)
        (.ok ["humor label"])).1 DEMO_VARIANT_ID) "humor" = some (1/2) ∧
      effective (steer_feature initialStore DEMO_VARIANT_ID "humor" (1/2)
        (.ok ["humor label"])).1 DEMO_VARIANT_ID "humor" = some (1/2)) ∧
    (¬((-1 : ℚ) ≤ 2 ∧ (2 : ℚ) ≤ 1) ∧
      (steer_feature initialStore DEMO_VARIANT_ID "humor" 2 (.ok ["humor label"])).1
        = initialStore) := by
  have h1 := (steer_feature_spec.1 initialStore "humor" (1/2) ["humor label"]
    (by norm_num) (by norm_num) (by decide))
  have h2 := (steer_feature_spec.2 initialStore "humor" 2 (.ok ["humor label"])
    (by norm_num))
  exact ⟨⟨by norm_num, by norm_num, by decide, h1.1, h1.2.1, h1.2.2.2⟩,
    ⟨by norm_num, h2.1⟩⟩

/-- Claim C3: rejecting after any sequence of proposals succeeds, clears the
pending map, leaves the confirmed map exactly as it was before the
proposals, and restores the effective edits to the pre-proposal confirmed
edits; a reject with nothing pending is also a success. -/
theorem reject_changes_spec (ps : List (String × ℚ × Except String (List String)))
    (st : VariantStore) :
    (reject_changes (applyProposals st ps) DEMO_VARIANT_ID).2 = .ok true ∧
    ((reject_changes (applyProposals st ps) DEMO_VARIANT_ID).1).modified = st.modified ∧
    pendingOf (reject_changes (applyProposals st ps) DEMO_VARIANT_ID).1
      DEMO_VARIANT_ID = [] ∧
    (∀ f, effective (reject_changes (applyProposals st ps) DEMO_VARIANT_ID).1
      DEMO_VARIANT_ID f = dictGet? (modifiedOf st DEMO_VARIANT_ID) f) := by
  have hmodframe : (applyProposals st ps).modified = st.modified :=
    applyProposals_modified_frame ps st
  by_cases hp : dictGetD (applyProposals st ps).pending DEMO_VARIANT_ID [] = []
  · have hc : reject_changes (applyProposals st ps) DEMO_VARIANT_ID
        = (applyProposals st ps, .ok true) := by
      simp [reject_changes, hp]
    refine ⟨by rw [hc], by rw [hc]; exact hmodframe, by rw [hc]; exact hp, ?_⟩
    intro f
    rw [hc]
    show effective (applyProposals st ps) DEMO_VARIANT_ID f = _
    rw [effective]
    have : pendingOf (applyProposals st ps) DEMO_VARIANT_ID = [] := hp
    rw [this]
    show dictGet? (modifiedOf (applyProposals st ps) DEMO_VARIANT_ID) f = _
    rw [modifiedOf, modifiedOf, hmodframe]
  · have hc : reject_changes (applyProposals st ps) DEMO_VARIANT_ID
        = ({ applyProposals st ps with
            pending := dictSet (applyProposals st ps).pending DEMO_VARIANT_ID [] },
          .ok true) := by
      simp [reject_changes, hp]
    have hpend : pendingOf (reject_changes (applyProposals st ps) DEMO_VARIANT_ID).1
        DEMO_VARIANT_ID = [] := by
      rw [hc]
      simp [pendingOf, dictGetD, dictGet?_set_self]
    refine ⟨by rw [hc], by rw [hc]; exact hmodframe, hpend, ?_⟩
    intro f
    have hm : (reject_changes (applyProposals st ps) DEMO_VARIANT_ID).1.modified
        = st.modified := by rw [hc]; exact hmodframe
    rw [effective, hpend]
    show dictGet? (modifiedOf (reject_changes (applyProposals st ps)
      DEMO_VARIANT_ID).1 DEMO_VARIANT_ID) f = _
    rw [modifiedOf, modifiedOf, hm]

/-! ## Properties of the keyword-length guard -/

theorem popFuel_append (n : Nat) :
    ∀ (ks : List String) (m : Nat), ∃ t, popFuel n ks m ++ t = ks := by
  induction n with
  | zero => intro ks m; exact ⟨[], by simp [popFuel]⟩
  | succ n ih =>
    intro ks m
    by_cases hc : ks ≠ [] ∧ (joinSpace ks).length > m
    · rcases ih ks.dropLast m with ⟨t, ht⟩
      refine ⟨t ++ [ks.getLast hc.1], ?_⟩
      rw [popFuel, if_pos hc, ← List.append_assoc, ht,
        List.dropLast_append_getLast hc.1]
    · exact ⟨[], by rw [popFuel, if_neg hc, List.append_nil]⟩

theorem popFuel_fits (n : Nat) :
    ∀ (ks : List String) (m : Nat), ks.length ≤ n →
    popFuel n ks m = [] ∨ (joinSpace (popFuel n ks m)).length ≤ m := by
  induction n with
  | zero =>
    intro ks m hlen
    left
    have : ks = [] := List.length_eq_zero.mp (Nat.le_zero.mp hlen)
    simp [popFuel, this]
  | succ n ih =>
    intro ks m hlen
    by_cases hc : ks ≠ [] ∧ (joinSpace ks).length > m
    · rw [popFuel, if_pos hc]
      refine ih _ _ ?_
      have hpos : 0 < ks.length := List.length_pos.mpr hc.1
      rw [List.length_dropLast]
      omega
    · rw [popFuel, if_neg hc]
      rcases not_and_or.mp hc with h | h
      · left; exact not_not.mp h
      · right; exact not_lt.mp h

/-- Claim C5: the keyword-length guard always returns a list whose
space-join has at most 100 characters, and the output is a prefix of the
input list (in particular an order-preserving, prefix-consistent
subset/truncation of it). -/
theorem truncate_keywords_bound_and_order (keywords : List String) :
    (joinSpace (truncate_keywords_to_query_limit keywords)).length ≤ 100 ∧
    ∃ t, truncate_keywords_to_query_limit keywords ++ t = keywords := by
  by_cases h0 : keywords.isEmpty
  · have he : keywords = [] := List.isEmpty_iff.mp h0
    subst he
    exact ⟨by simp [truncate_keywords_to_query_limit, joinSpace]; decide, ⟨[], by rfl⟩⟩
  · by_cases h1 : (joinSpace keywords).length ≤ 100
    · have hc : truncate_keywords_to_query_limit keywords = keywords := by
        simp [truncate_keywords_to_query_limit, h0, h1]
      rw [hc]
      exact ⟨h1, [], by simp⟩
    · by_cases hne : popFuel keywords.length keywords 100 = []
      · have hc : truncate_keywords_to_query_limit keywords = [] := by
          simp [truncate_keywords_to_query_limit, h0, h1, hne]
        rw [hc]
        exact ⟨by simp [joinSpace]; decide, keywords, by simp⟩
      · have hle : (joinSpace (popFuel keywords.length keywords 100)).length ≤ 100 :=
          (popFuel_fits keywords.length keywords 100 le_rfl).resolve_left hne
        have hc : truncate_keywords_to_query_limit keywords
            = popFuel keywords.length keywords 100 := by
          have hnotgt : ¬((joinSpace (popFuel keywords.length keywords 100)).length > 100) :=
            not_lt.mpr hle
          simp [truncate_keywords_to_query_limit, h0, h1, hne, hnotgt]
        rw [hc]
        rcases popFuel_append keywords.length keywords 100 with ⟨t, ht⟩
        exact ⟨hle, t, ht⟩

/-- Claim C4 (code bug): a single keyword of 101 characters joins to more
than 100 characters, yet the guard returns the empty list: the popping loop
also drops the last remaining keyword, so the character-truncation branch of
the source (llm_service.py lines 486-494) is unreachable and no non-empty
truncated keyword is ever produced. -/
theorem truncate_single_long_keyword_dropped :
    (joinSpace [String.mk (List.replicate 101 'a')]).length > 100 ∧
    truncate_keywords_to_query_limit [String.mk (List.replicate 101 'a')] = [] := by
  constructor <;> decide

/-! ## C6: auto-steer strength validation -/

theorem map_fst_dictSet {α : Type} (d : List (String × α)) (k k' : String) (v : α)
    (h : k' ∈ (dictSet d k v).map Prod.fst) : k' = k ∨ k' ∈ d.map Prod.fst := by
  rcases List.mem_map.mp h with ⟨p, hp, he⟩
  rcases mem_dictSet d k v p hp with h1 | h1
  · left
    rw [← he, h1]
  · right
    exact he ▸ List.mem_map_of_mem _ h1

theorem extractStep_range (results : List UnifiedFeature)
    (acc : List (String × ℚ)) (s : ParsedSelection) (p : String × ℚ)
    (hmem : p ∈ extractStep results acc s) :
    p ∈ acc ∨ (-(3 / 5 : ℚ) ≤ p.2 ∧ p.2 ≤ 3 / 5) := by
  unfold extractStep at hmem
  by_cases hl : pyStrip s.label ≠ ""
  · simp only [if_pos hl] at hmem
    cases hv : s.value with
    | none => rw [hv] at hmem; exact Or.inl hmem
    | some v =>
      rw [hv] at hmem
      by_cases hr : -(3 / 5 : ℚ) ≤ v ∧ v ≤ 3 / 5
      · simp only [if_pos hr] at hmem
        cases hu : find_feature_uuid_by_label (pyStrip s.label) results with
        | none => rw [hu] at hmem; exact Or.inl hmem
        | some uuid =>
          rw [hu] at hmem
          rcases mem_dictSet _ _ _ _ hmem with h1 | h1
          · right
            rw [h1]
            exact hr
          · exact Or.inl h1
      · simp only [if_neg hr] at hmem
        exact Or.inl hmem
  · simp only [if_neg hl] at hmem
    exact Or.inl hmem

theorem extract_fold_range (sels : List ParsedSelection)
    (results : List UnifiedFeature) :
    ∀ acc : List (String × ℚ),
    (∀ p : String × ℚ, p ∈ acc → -(3 / 5 : ℚ) ≤ p.2 ∧ p.2 ≤ 3 / 5) →
    ∀ p : String × ℚ, p ∈ sels.foldl (extractStep results) acc →
      -(3 / 5 : ℚ) ≤ p.2 ∧ p.2 ≤ 3 / 5 := by
  induction sels with
  | nil => intro acc hacc p hp; exact hacc p hp
  | cons s rest ih =>
    intro acc hacc p hp
    refine ih _ ?_ p hp
    intro q hq
    rcases extractStep_range results acc s q hq with h1 | h1
    · exact hacc q h1
    · exact h1

/-- Claim C6 amended: every selection kept by the free-text JSON fallback
extraction of `select_features_to_modify` has a value in [-0.6, 0.6]; no
0.2-increment restriction is enforced there, and the structured
function-call path performs no local range validation at all. -/
theorem extract_feature_selections_range (sels : List ParsedSelection)
    (results : List UnifiedFeature) (u : String) (v : ℚ)
    (hmem : (u, v) ∈ extract_feature_selections sels results) :
    -(3 / 5 : ℚ) ≤ v ∧ v ≤ 3 / 5 := by
  have hbase : ∀ p : String × ℚ, p ∈ sels.foldl (extractStep results) [] →
      -(3 / 5 : ℚ) ≤ p.2 ∧ p.2 ≤ 3 / 5 :=
    extract_fold_range sels results [] (by intro p hp; exact absurd hp (List.not_mem_nil _))
  unfold extract_feature_selections at hmem
  by_cases hlen : (sels.foldl (extractStep results) []).length > 2
  · simp only [if_pos hlen] at hmem
    exact hbase (u, v) (List.mem_of_mem_take hmem)
  · simp only [if_neg hlen] at hmem
    exact hbase (u, v) hmem

/-- Witness for `extract_feature_selections_range`: a fallback selection
labelled "humor" with value 0 matching a search result labelled "humor". -/
theorem extract_feature_selections_range_witness :
    (("u1", (0 : ℚ)) ∈ extract_feature_selections [⟨"humor", some 0⟩]
      [⟨"u1", "humor", none, 0, none⟩]) ∧
    (-(3 / 5 : ℚ) ≤ 0 ∧ (0 : ℚ) ≤ 3 / 5) := by
  have h1 : find_feature_uuid_by_label "humor" [⟨"u1", "humor", none, 0, none⟩]
      = some "u1" := by decide
  have hr : (-(3 / 5 : ℚ) ≤ 0 ∧ (0 : ℚ) ≤ 3 / 5) := by constructor <;> norm_num
  have htrim : pyStrip "humor" = "humor" := by decide
  have h2 : extract_feature_selections [⟨"humor", some 0⟩]
      [⟨"u1", "humor", none, 0, none⟩] = [("u1", 0)] := by
    simp [extract_feature_selections, extractStep, htrim, h1, hr, dictSet]
  have hmem : ("u1", (0 : ℚ)) ∈ extract_feature_selections [⟨"humor", some 0⟩]
      [⟨"u1", "humor", none, 0, none⟩] := by
    rw [h2]
    exact List.mem_singleton.mpr rfl
  exact ⟨hmem, extract_feature_selections_range _ _ "u1" 0 hmem⟩

/-- Claim C6 counterexample: the structured function-call conversion loop of
`select_features_to_modify` keeps a selection of value 2, far outside
[-0.6, 0.6] — no local range or step validation takes place on that
path, so the claimed invariant fails for structured selections. -/
theorem structured_selection_out_of_grid :
    ("u1", (2 : ℚ)) ∈ structured_selections [⟨some "u1", some 2⟩] ∧
    ¬((-(3 / 5 : ℚ) ≤ 2 ∧ (2 : ℚ) ≤ 3 / 5) ∧
      ∃ k : ℤ, (2 : ℚ) = k * (1 / 5)) := by
  constructor
  · decide
  · rintro ⟨⟨-, hle⟩, -⟩
    norm_num at hle

/-! ## C7: auto-steer with zero keywords -/

/-- Claim C7 (code bug): when the analysis capability yields an empty
keyword list, `auto_steer` raises instead of returning the unsuccessful
response of variant_service.py lines 427-433: unpacking the returned list
into `keywords, persona` (line 421) fails on a list without exactly two
elements, and the wrapper (line 522) re-raises it as
`Exception("Auto-steer failed: ...")`.  The store is left unchanged, for
every starting store and search oracle. -/
theorem auto_steer_empty_keywords_raises (st : VariantStore)
    (searchOracle : Except String (List (String × String))) :
    auto_steer st DEMO_VARIANT_ID (.ok []) searchOracle
      = (st, .error "Auto-steer failed: not enough values to unpack") := by
  simp [auto_steer]

/-! ## C8: top_k validation in search -/

/-- Claim C8 counterexample: with `top_k = 0` and an external search oracle
that would succeed, `search_features` raises the `top_k` validation error —
the out-of-range value is rejected, not clamped, and the search is never
delegated. -/
theorem search_features_topk_not_clamped :
    search_features initialStore DEMO_VARIANT_ID "q" 0 (.ok [("u1", "humor")]) []
      = .error "top_k must be greater than 0" := by
  have htrim : ¬(pyStrip "q" = "") := by decide
  simp [search_features, htrim]

/-- Claim C8 amended: for every `top_k` outside (0, 100] (and any store,
any query that is nonempty after stripping, and any search oracle),
`search_features` raises the corresponding validation error; there is no
clamping and no delegation to the external service. -/
theorem search_features_topk_validation (st : VariantStore) (q : String)
    (k : Int) (oracle : Except String (List (String × String)))
    (activated : List (String × ℚ))
    (hq : ¬(pyStrip q = "")) (hk : k ≤ 0 ∨ k > 100) :
    search_features st DEMO_VARIANT_ID q k oracle activated =
      .error (if k ≤ 0 then "top_k must be greater than 0"
              else "top_k cannot exceed 100") := by
  rcases hk with hk | hk
  · simp [search_features, hq, hk]
  · have hk0 : ¬(k ≤ 0) := by omega
    simp [search_features, hq, hk0, hk]

/-- Witness for `search_features_topk_validation` at `top_k = 0`. -/
theorem search_features_topk_validation_witness :
    ¬(pyStrip "q" = "") ∧ ((0 : Int) ≤ 0 ∨ (0 : Int) > 100) ∧
    search_features initialStore DEMO_VARIANT_ID "q" 0 (.ok []) []
      = .error "top_k must be greater than 0" := by
  refine ⟨by decide, Or.inl (by decide), ?_⟩
  have h := search_features_topk_validation initialStore "q" 0 (.ok []) []
    (by decide) (Or.inl (by decide))
  simpa using h

/-! ## C9: streaming event order -/

/-- Claim C9: with a nonempty feature selection and successful upstream
streams, the auto-steer streaming generator emits exactly the baseline
chunks in order, then the steered chunks in order, then one terminal done
event carrying both accumulated texts and the applied features; every
event before the terminal one is a content chunk, the done event is last
and unique, and no error event occurs. -/
theorem stream_auto_steer_event_order (steered_features : List SteerFeatureResponse)
    (baseline steered : List String) (hne : steered_features ≠ []) :
    stream_auto_steer_completion steered_features baseline steered
        = (baseline ++ steered).map chunkEvent ++
          [⟨"done", none, some true,
            some ⟨String.join baseline, String.join steered, steered_features⟩, none⟩] ∧
    ((stream_auto_steer_completion steered_features baseline steered).filter
        (fun e => e.type == "done")).length = 1 ∧
    (stream_auto_steer_completion steered_features baseline steered).getLast?
      = some ⟨"done", none, some true,
          some ⟨String.join baseline, String.join steered, steered_features⟩, none⟩ ∧
    (∀ e ∈ (stream_auto_steer_completion steered_features baseline steered).dropLast,
      e.type = "chunk") ∧
    (∀ e ∈ stream_auto_steer_completion steered_features baseline steered,
      e.type ≠ "error") := by
  have hie : steered_features.isEmpty = false := by
    simpa [List.isEmpty_iff] using hne
  have hc : stream_auto_steer_completion steered_features baseline steered
      = (baseline ++ steered).map chunkEvent ++
        [⟨"done", none, some true,
          some ⟨String.join baseline, String.join steered, steered_features⟩, none⟩] := by
    simp [stream_auto_steer_completion, hie, List.map_append]
  refine ⟨hc, ?_, ?_, ?_, ?_⟩
  · rw [hc]
    rw [List.filter_append]
    have h1 : ((baseline ++ steered).map chunkEvent).filter
        (fun e => e.type == "done") = [] := by
      rw [List.filter_map]
      have : (fun e : ChatStreamChunk => e.type == "done") ∘ chunkEvent
          = fun _ => false := by
        funext d
        simp [chunkEvent]
      rw [this, List.filter_false, List.map_nil]
    rw [h1]
    rfl
  · rw [hc]
    exact List.getLast?_concat _
  · rw [hc]
    intro e he
    rw [List.dropLast_concat] at he
    rcases List.mem_map.mp he with ⟨d, _, hd⟩
    rw [← hd]
    rfl
  · rw [hc]
    intro e he
    rcases List.mem_append.mp he with h1 | h1
    · rcases List.mem_map.mp h1 with ⟨d, _, hd⟩
      rw [← hd]
      simp [chunkEvent]
    · rcases List.mem_singleton.mp h1 with rfl
      simp

/-- Witness for `stream_auto_steer_event_order`: one applied feature, two
baseline chunks and one steered chunk. -/
theorem stream_auto_steer_event_order_witness :
    ([(⟨"humor", none, 1/5⟩ : SteerFeatureResponse)] ≠ []) ∧
    (stream_auto_steer_completion [⟨"humor", none, 1/5⟩] ["a", "b"] ["c"]
        = (["a", "b"] ++ ["c"]).map chunkEvent ++
          [⟨"done", none, some true,
            some ⟨String.join ["a", "b"], String.join ["c"],
              [⟨"humor", none, 1/5⟩]⟩, none⟩] ∧
      ((stream_auto_steer_completion [⟨"humor", none, 1/5⟩] ["a", "b"] ["c"]).filter
          (fun e => e.type == "done")).length = 1 ∧
      (stream_auto_steer_completion [⟨"humor", none, 1/5⟩] ["a", "b"] ["c"]).getLast?
        = some ⟨"done", none, some true,
            some ⟨String.join ["a", "b"], String.join ["c"],
              [⟨"humor", none, 1/5⟩]⟩, none⟩ ∧
      (∀ e ∈ (stream_auto_steer_completion [⟨"humor", none, 1/5⟩]
          ["a", "b"] ["c"]).dropLast, e.type = "chunk") ∧
      (∀ e ∈ stream_auto_steer_completion [⟨"humor", none, 1/5⟩] ["a", "b"] ["c"],
        e.type ≠ "error")) :=
  ⟨by simp, stream_auto_steer_event_order [⟨"humor", none, 1/5⟩] ["a", "b"] ["c"]
    (by simp)⟩

/-! ## C10: only the demo variant is ever touched -/

theorem steer_feature_keys_pending (st : VariantStore) (vid f : String) (v : ℚ)
    (lk : Except String (List String)) (k : String)
    (h : k ∈ ((steer_feature st vid f v lk).1).pending.map Prod.fst) :
    k = DEMO_VARIANT_ID ∨ k ∈ st.pending.map Prod.fst := by
  by_cases h1 : vid ≠ DEMO_VARIANT_ID
  · right
    simpa [steer_feature, h1] using h
  · have hvid : vid = DEMO_VARIANT_ID := not_not.mp h1
    by_cases h2 : ¬(-1 ≤ v ∧ v ≤ 1)
    · right
      simpa [steer_feature, h1, h2] using h
    · cases lk with
      | error e =>
        right
        simpa [steer_feature, h1, h2] using h
      | ok l =>
        by_cases h3 : l.isEmpty
        · right
          simpa [steer_feature, h1, h2, h3] using h
        · by_cases h4 : dictMem st.pending vid
          · simp only [steer_feature, h1, h2, h3, h4] at h
            rcases map_fst_dictSet _ _ _ _ h with h5 | h5
            · exact Or.inl (h5.trans hvid)
            · exact Or.inr h5
          · simp only [steer_feature, h1, h2, h3, h4] at h
            rcases map_fst_dictSet _ _ _ _ h with h5 | h5
            · exact Or.inl (h5.trans hvid)
            · rcases map_fst_dictSet _ _ _ _ h5 with h6 | h6
              · exact Or.inl (h6.trans hvid)
              · exact Or.inr h6

theorem commit_changes_keys (st : VariantStore) (vid k : String) :
    (k ∈ ((commit_changes st vid).1).modified.map Prod.fst →
      k = DEMO_VARIANT_ID ∨ k ∈ st.modified.map Prod.fst) ∧
    (k ∈ ((commit_changes st vid).1).pending.map Prod.fst →
      k = DEMO_VARIANT_ID ∨ k ∈ st.pending.map Prod.fst) := by
  by_cases h1 : vid ≠ DEMO_VARIANT_ID
  · constructor <;> (intro h; right; simpa [commit_changes, h1] using h)
  · have hvid : vid = DEMO_VARIANT_ID := not_not.mp h1
    by_cases hp : dictGetD st.pending vid [] = []
    · constructor <;> (intro h; right; simpa [commit_changes, h1, hp] using h)
    · have hpendx : ((commit_changes st vid).1).pending
          = dictSet st.pending vid [] := by
        by_cases hm : dictMem st.modified vid <;> simp [commit_changes, h1, hp, hm]
      by_cases hm : dictMem st.modified vid
      · have hmodx : ((commit_changes st vid).1).modified
            = dictSet st.modified vid
              (List.foldl commitStep (modifiedOf st vid)
                (dictGetD st.pending vid [])) := by
          simp [commit_changes, h1, hp, hm]
        constructor
        · intro h
          rw [hmodx] at h
          rcases map_fst_dictSet _ _ _ _ h with h5 | h5
          · exact Or.inl (h5.trans hvid)
          · exact Or.inr h5
        · intro h
          rw [hpendx] at h
          rcases map_fst_dictSet _ _ _ _ h with h5 | h5
          · exact Or.inl (h5.trans hvid)
          · exact Or.inr h5
      · have hmodx : ((commit_changes st vid).1).modified
            = dictSet (dictSet st.modified vid []) vid
              (List.foldl commitStep
                (modifiedOf ⟨dictSet st.modified vid [], st.pending⟩ vid)
                (dictGetD st.pending vid [])) := by
          simp [commit_changes, h1, hp, hm]
        constructor
        · intro h
          rw [hmodx] at h
          rcases map_fst_dictSet _ _ _ _ h with h5 | h5
          · exact Or.inl (h5.trans hvid)
          · rcases map_fst_dictSet _ _ _ _ h5 with h6 | h6
            · exact Or.inl (h6.trans hvid)
            · exact Or.inr h6
        · intro h
          rw [hpendx] at h
          rcases map_fst_dictSet _ _ _ _ h with h5 | h5
          · exact Or.inl (h5.trans hvid)
          · exact Or.inr h5

theorem reject_changes_keys (st : VariantStore) (vid k : String) :
    ((reject_changes st vid).1).modified = st.modified ∧
    (k ∈ ((reject_changes st vid).1).pending.map Prod.fst →
      k = DEMO_VARIANT_ID ∨ k ∈ st.pending.map Prod.fst) := by
  by_cases h1 : vid ≠ DEMO_VARIANT_ID
  · exact ⟨by simp [reject_changes, h1], fun h => Or.inr (by simpa [reject_changes, h1] using h)⟩
  · have hvid : vid = DEMO_VARIANT_ID := not_not.mp h1
    by_cases hp : dictGetD st.pending vid [] = []
    · exact ⟨by simp [reject_changes, h1, hp],
        fun h => Or.inr (by simpa [reject_changes, h1, hp] using h)⟩
    · have hpendx : ((reject_changes st vid).1).pending
          = dictSet st.pending vid [] := by
        simp [reject_changes, h1, hp]
      refine ⟨by simp [reject_changes, h1, hp], fun h => ?_⟩
      rw [hpendx] at h
      rcases map_fst_dictSet _ _ _ _ h with h5 | h5
      · exact Or.inl (h5.trans hvid)
      · exact Or.inr h5

theorem auto_steer_state_frame (st : VariantStore) (vid : String)
    (gen : Except String (List String))
    (so : Except String (List (String × String))) :
    (auto_steer st vid gen so).1 = st := by
  by_cases h1 : vid ≠ DEMO_VARIANT_ID
  · simp [auto_steer, h1]
  · cases gen with
    | error e => simp [auto_steer, h1]
    | ok kws =>
      match kws with
      | [] => simp [auto_steer, h1]
      | [a] => simp [auto_steer, h1]
      | [kw, p] =>
        by_cases hk : kw = ""
        · simp [auto_steer, h1, hk]
        · cases hs : search_features st vid (joinChars kw) 10 so [] with
          | error e => simp [auto_steer, h1, hk, hs]
          | ok features =>
            by_cases hf : features.isEmpty <;> simp [auto_steer, h1, hk, hs, hf]
      | a :: b :: c :: rest => simp [auto_steer, h1]

/-- The stores reachable from process start through the four state-touching
operations of `VariantService` (with arbitrary arguments and oracles). -/
inductive Reachable : VariantStore → Prop where
  | init : Reachable initialStore
  | steer (st : VariantStore) (vid f : String) (v : ℚ)
      (lk : Except String (List String)) :
      Reachable st → Reachable (steer_feature st vid f v lk).1
  | commit (st : VariantStore) (vid : String) :
      Reachable st → Reachable (commit_changes st vid).1
  | reject (st : VariantStore) (vid : String) :
      Reachable st → Reachable (reject_changes st vid).1
  | auto (st : VariantStore) (vid : String) (gen : Except String (List String))
      (so : Except String (List (String × String))) :
      Reachable st → Reachable (auto_steer st vid gen so).1

/-- Claim C10: each of propose/commit/reject/auto-steer invoked with any
variant id other than the hardcoded demo id fails with the not-found error
and returns the store unchanged (no configuration is created for an unknown
id); consequently every store reachable from process start keys its edit
maps by the demo variant id only. -/
theorem demo_only_variant_ops :
    (∀ (st : VariantStore) (vid f : String) (v : ℚ)
        (lk : Except String (List String)), vid ≠ DEMO_VARIANT_ID →
      steer_feature st vid f v lk
        = (st, .error ("Variant " ++ vid ++ " not found"))) ∧
    (∀ (st : VariantStore) (vid : String), vid ≠ DEMO_VARIANT_ID →
      commit_changes st vid = (st, .error ("Variant " ++ vid ++ " not found"))) ∧
    (∀ (st : VariantStore) (vid : String), vid ≠ DEMO_VARIANT_ID →
      reject_changes st vid = (st, .error ("Variant " ++ vid ++ " not found"))) ∧
    (∀ (st : VariantStore) (vid : String) (gen : Except String (List String))
        (so : Except String (List (String × String))), vid ≠ DEMO_VARIANT_ID →
      auto_steer st vid gen so
        = (st, .error ("Variant " ++ vid ++ " not found"))) ∧
    (∀ st : VariantStore, Reachable st →
      (∀ k ∈ st.modified.map Prod.fst, k = DEMO_VARIANT_ID) ∧
      (∀ k ∈ st.pending.map Prod.fst, k = DEMO_VARIANT_ID)) := by
  refine ⟨fun st vid f v lk h => by simp [steer_feature, h],
    fun st vid h => by simp [commit_changes, h],
    fun st vid h => by simp [reject_changes, h],
    fun st vid gen so h => by simp [auto_steer, h], ?_⟩
  intro st h
  induction h with
  | init => exact ⟨by simp [initialStore], by simp [initialStore]⟩
  | steer st vid f v lk _ ih =>
    refine ⟨fun k hk => ?_, fun k hk => ?_⟩
    · rw [steer_feature_modified_frame] at hk
      exact ih.1 k hk
    · rcases steer_feature_keys_pending st vid f v lk k hk with h5 | h5
      · exact h5
      · exact ih.2 k h5
  | commit st vid _ ih =>
    refine ⟨fun k hk => ?_, fun k hk => ?_⟩
    · rcases (commit_changes_keys st vid k).1 hk with h5 | h5
      · exact h5
      · exact ih.1 k h5
    · rcases (commit_changes_keys st vid k).2 hk with h5 | h5
      · exact h5
      · exact ih.2 k h5
  | reject st vid _ ih =>
    refine ⟨fun k hk => ?_, fun k hk => ?_⟩
    · rw [(reject_changes_keys st vid k).1] at hk
      exact ih.1 k hk
    · rcases (reject_changes_keys st vid k).2 hk with h5 | h5
      · exact h5
      · exact ih.2 k h5
  | auto st vid gen so _ ih =>
    rw [auto_steer_state_frame]
    exact ih

/-- Witness for `demo_only_variant_ops`: the id "other" is rejected by all
four operations on the empty initial store, which is reachable and keyed by
the demo id only. -/
theorem demo_only_variant_ops_witness :
    (("other" : String) ≠ DEMO_VARIANT_ID) ∧
    steer_feature initialStore "other" "f" 0 (.ok ["l"])
      = (initialStore, .error ("Variant " ++ "other" ++ " not found")) ∧
    commit_changes initialStore "other"
      = (initialStore, .error ("Variant " ++ "other" ++ " not found")) ∧
    reject_changes initialStore "other"
      = (initialStore, .error ("Variant " ++ "other" ++ " not found")) ∧
    auto_steer initialStore "other" (.ok []) (.ok [])
      = (initialStore, .error ("Variant " ++ "other" ++ " not found")) ∧
    ((∀ k ∈ initialStore.modified.map Prod.fst, k = DEMO_VARIANT_ID) ∧
      (∀ k ∈ initialStore.pending.map Prod.fst, k = DEMO_VARIANT_ID)) := by
  have hne : ("other" : String) ≠ DEMO_VARIANT_ID := by decide
  exact ⟨hne, demo_only_variant_ops.1 _ _ _ _ _ hne,
    demo_only_variant_ops.2.1 _ _ hne,
    demo_only_variant_ops.2.2.1 _ _ hne,
    demo_only_variant_ops.2.2.2.1 _ _ _ _ hne,
    demo_only_variant_ops.2.2.2.2 _ Reachable.init⟩
